import Mathlib

/-!
Verification of the tap2rekt websocket server's lobby/match state machines.

The repository contains several variants of the same server.  The embedding
below models the two that differ in behaviour:

* namespace `P0` — the lobby-flow server (the final variant found in
  `src/unnamed/part_000`, lines 104-349): `join_lobby`, `deposit_made` with
  match materialization and a 2000 ms settle timer, a `join_match` that adds
  a player only when absent and triggers the countdown only from `waiting`,
  and a game-end timer that persists `winner` on the session;
* namespace `STS` — the legacy server (`src/server.ts`, and identically
  `src/unnamed/part_001` / the first half of `part_000`): `join_match`
  unconditionally overwrites the player entry and triggers the countdown
  exactly when the player count equals 2, and the game-end timer computes the
  winner only for the broadcast without persisting it.

JavaScript `Record<string, T>` objects are modelled as insertion-ordered
association lists `List (String × T)`; `Object.keys(r).length` is the list
length and `Object.values(r)` is the list of second components.  Each
`setTimeout` body becomes an explicit timer-firing event, so a trace is a
list of client events and timer firings.
-/

namespace Tap2Rekt

/-- Association-list lookup, mirroring `r[k]` on a JS record. -/
def alGet {α : Type} : List (String × α) → String → Option α
  | [], _ => none
  | (k1, v) :: xs, k => if k1 = k then some v else alGet xs k

/-- Association-list write, mirroring `r[k] = v` on a JS record: replaces the
entry in place if the key is present, otherwise appends (JS records keep
insertion order for string keys). -/
def alSet {α : Type} : List (String × α) → String → α → List (String × α)
  | [], k, v => [(k, v)]
  | (k1, v1) :: xs, k, v =>
    if k1 = k then (k, v) :: xs else (k1, v1) :: alSet xs k v

/-- `type Player = { wallet, score, taps }` from the source. -/
structure Player where
  wallet : String
  score : Nat
  taps : Nat
deriving DecidableEq, Repr

/-- The four match phases from the source's `Match.state` union type. -/
inductive MatchState where
  | waiting
  | countdown
  | active
  | finished
deriving DecidableEq, Repr

/-- `type Match` from the source; `players` is the `Record<string, Player>`,
`winner?: string` becomes an `Option`. -/
structure Match where
  id : String
  players : List (String × Player)
  state : MatchState
  countdownTime : Nat
  gameTime : Nat
  winner : Option String
deriving DecidableEq, Repr

/-- The two lobby roles from `role: 'creator' | 'opponent'`. -/
inductive Role where
  | creator
  | opponent
deriving DecidableEq, Repr

/-- `type LobbyPlayer = { wallet, role, deposited }` from the source. -/
structure LobbyPlayer where
  wallet : String
  role : Role
  deposited : Bool
deriving DecidableEq, Repr

/-- The two lobby states from `state: "waiting" | "ready"`. -/
inductive LobbyState where
  | waiting
  | ready
deriving DecidableEq, Repr

/-- `type Lobby` from the source; the `deposits` record is flattened into its
two boolean fields. -/
structure Lobby where
  id : String
  players : List (String × LobbyPlayer)
  state : LobbyState
  depositsCreator : Bool
  depositsOpponent : Bool
deriving DecidableEq, Repr

/-- A `{ wallet, score }` entry of the `scores` array built at game end. -/
structure ScoreEntry where
  wallet : String
  score : Nat
deriving DecidableEq, Repr

/-- The outbound broadcasts the handlers emit, with the payload fields the
claims refer to (timestamps and durations are real-time data and are not
modelled). -/
inductive Broadcast where
  | lobbyUpdate (lobbyId : String) (playerCount : Nat) (status : LobbyState)
  | lobbyPlayerJoined (lobbyId : String) (playerCount : Nat) (wallet : String)
  | depositConfirmed (lobbyId : String) (role : Role)
  | matchReady (lobbyId : String) (matchId : Option String)
  | playerJoined (matchId : String) (playerCount : Nat)
  | countdownStart (matchId : String)
  | gameStart (matchId : String)
  | tapUpdate (matchId : String) (wallet : String) (taps : Nat)
  | gameEnd (matchId : String) (scores : List ScoreEntry) (winner : String)
  | playerLeft (matchId : String) (playerCount : Int)
deriving DecidableEq, Repr

/-- The process-wide mutable registries: `const lobbies: Record<string, Lobby>`
and `const matches: Record<string, Match>`. -/
structure GState where
  lobbies : List (String × Lobby)
  matchTable : List (String × Match)
deriving DecidableEq, Repr

/-- The empty registries the process starts with. -/
def initState : GState := ⟨[], []⟩

/-- `lobby.deposits[role] = true`. -/
def setDeposit (l : Lobby) : Role → Lobby
  | .creator => { l with depositsCreator := true }
  | .opponent => { l with depositsOpponent := true }

/-- `Object.values(lobby.players).forEach(p => match.players[p.wallet] =
{ wallet: p.wallet, score: 0, taps: 0 })` — the roster copy performed by the
deposit handler's ready branch. -/
def copyRoster (mps : List (String × Player)) (lps : List (String × LobbyPlayer)) :
    List (String × Player) :=
  lps.foldl (fun acc kv => alSet acc kv.2.wallet ⟨kv.2.wallet, 0, 0⟩) mps

/-- `scores = Object.values(match.players).map(p => ({ wallet: p.wallet,
score: p.taps }))`. -/
def computeScores (ps : List (String × Player)) : List ScoreEntry :=
  ps.map (fun kv => ⟨kv.2.wallet, kv.2.taps⟩)

/-- One step of `scores.reduce((a, b) => (a.score > b.score ? a : b))`. -/
def pickWinner (a b : ScoreEntry) : ScoreEntry :=
  if a.score > b.score then a else b

/-- `scores.reduce((a, b) => (a.score > b.score ? a : b))`; `none` models the
`TypeError` JS throws on an empty array. -/
def reduceScores : List ScoreEntry → Option ScoreEntry
  | [] => none
  | s :: ss => some (ss.foldl pickWinner s)

/-- The `join_lobby` handler (identical in `src/server.ts` and
`src/unnamed/part_000`): create the lobby if absent, then overwrite the
player entry with `deposited = false` and broadcast the updated count. -/
def joinLobby (g : GState) (lobbyId wallet : String) (role : Role) :
    GState × List Broadcast :=
  let l0 : Lobby := match alGet g.lobbies lobbyId with
    | none => ⟨lobbyId, [], .waiting, false, false⟩
    | some l => l
  let l1 : Lobby :=
    { l0 with players := alSet l0.players wallet ⟨wallet, role, false⟩ }
  ({ g with lobbies := alSet g.lobbies lobbyId l1 },
   [.lobbyUpdate lobbyId l1.players.length l1.state,
    .lobbyPlayerJoined lobbyId l1.players.length wallet])

/-- The `tap` handler (identical in every variant): increment and broadcast
only if the match exists, is `active`, and knows the wallet. -/
def tap (g : GState) (matchId wallet : String) : GState × List Broadcast :=
  match alGet g.matchTable matchId with
  | none => (g, [])
  | some m =>
    if m.state = MatchState.active then
      match alGet m.players wallet with
      | none => (g, [])
      | some p =>
        let p1 : Player := { p with taps := p.taps + 1 }
        let m1 : Match := { m with players := alSet m.players wallet p1 }
        ({ g with matchTable := alSet g.matchTable matchId m1 },
         [.tapUpdate matchId wallet p1.taps])
    else (g, [])

/-- The `disconnecting` handler (identical in every variant): for each room of
the socket that has a match, broadcast `player_left` with the stored player
count minus one; nothing is written. -/
def disconnecting (g : GState) (rooms : List String) : GState × List Broadcast :=
  (g, rooms.filterMap (fun r =>
    (alGet g.matchTable r).map (fun m =>
      Broadcast.playerLeft r ((m.players.length : Int) - 1))))

namespace P0

/-- `startMatchCountdown` from `src/unnamed/part_000`: early-return if the
match is gone, else set `countdown` and broadcast `countdown_start`. -/
def startMatchCountdown (g : GState) (matchId : String) : GState × List Broadcast :=
  match alGet g.matchTable matchId with
  | none => (g, [])
  | some m =>
    ({ g with matchTable := alSet g.matchTable matchId { m with state := .countdown } },
     [.countdownStart matchId])

/-- The `deposit_made` handler from `src/unnamed/part_000`: record the deposit
for the member's role; when both roles have deposited, set the lobby `ready`,
materialize the match, copy the lobby roster into it (overwriting entries),
force its state to `waiting` and arm the 2000 ms settle timer (modelled as
the separate `settleFire` event). -/
def depositMade (g : GState) (lobbyId wallet : String) : GState × List Broadcast :=
  match alGet g.lobbies lobbyId with
  | none => (g, [])
  | some lobby =>
    match alGet lobby.players wallet with
    | none => (g, [])
    | some lp =>
      let role := lp.role
      let lobby1 : Lobby := setDeposit lobby role
      let lp1 : LobbyPlayer := { lp with deposited := true }
      let lobby2 : Lobby := { lobby1 with players := alSet lobby1.players wallet lp1 }
      if lobby2.depositsCreator && lobby2.depositsOpponent then
        let lobby3 : Lobby := { lobby2 with state := LobbyState.ready }
        let matchId := lobbyId
        let m0 : Match := match alGet g.matchTable matchId with
          | none => ⟨matchId, [], .waiting, 3, 30, none⟩
          | some m => m
        let m1 : Match := { m0 with players := copyRoster m0.players lobby3.players }
        let m2 : Match := { m1 with state := MatchState.waiting }
        ({ lobbies := alSet g.lobbies lobbyId lobby3,
           matchTable := alSet g.matchTable matchId m2 },
         [.depositConfirmed lobbyId role, .matchReady lobbyId (some matchId)])
      else
        ({ g with lobbies := alSet g.lobbies lobbyId lobby2 },
         [.depositConfirmed lobbyId role])

/-- The `join_match` handler from `src/unnamed/part_000`: create the match if
absent, add the wallet only if not already present, broadcast the count, and
start the countdown only when the count is at least 2 and the state is still
`waiting`. -/
def joinMatch (g : GState) (matchId wallet : String) : GState × List Broadcast :=
  let m0 : Match := match alGet g.matchTable matchId with
    | none => ⟨matchId, [], .waiting, 3, 30, none⟩
    | some m => m
  let m1 : Match := match alGet m0.players wallet with
    | some _ => m0
    | none => { m0 with players := alSet m0.players wallet ⟨wallet, 0, 0⟩ }
  let g1 := { g with matchTable := alSet g.matchTable matchId m1 }
  let b1 := Broadcast.playerJoined matchId m1.players.length
  if 2 ≤ m1.players.length ∧ m1.state = MatchState.waiting then
    let r := startMatchCountdown g1 matchId
    (r.1, b1 :: r.2)
  else (g1, [b1])

/-- The body of the 2000 ms settle timer armed by `depositMade`:
`if (matches[matchId] && matches[matchId].state === "waiting")
startMatchCountdown(matchId)`. -/
def settleFire (g : GState) (matchId : String) : GState × List Broadcast :=
  match alGet g.matchTable matchId with
  | none => (g, [])
  | some m =>
    if m.state = MatchState.waiting then startMatchCountdown g matchId
    else (g, [])

/-- The body of the countdown timer armed by `startMatchCountdown`: if the
match still exists, set `active` and broadcast `game_start` (no check that the
state is still `countdown`). -/
def countdownFire (g : GState) (matchId : String) : GState × List Broadcast :=
  match alGet g.matchTable matchId with
  | none => (g, [])
  | some m =>
    ({ g with matchTable := alSet g.matchTable matchId { m with state := .active } },
     [.gameStart matchId])

/-- The body of the game-duration timer: if the match still exists, set
`finished`, build the score list, reduce it to the winner, persist the winner
on the session and broadcast `game_end`.  An empty roster makes the JS
`reduce` throw after the state write; that is the `none` branch. -/
def gameEndFire (g : GState) (matchId : String) : GState × List Broadcast :=
  match alGet g.matchTable matchId with
  | none => (g, [])
  | some m =>
    let m1 : Match := { m with state := MatchState.finished }
    let scores := computeScores m1.players
    match reduceScores scores with
    | none => ({ g with matchTable := alSet g.matchTable matchId m1 }, [])
    | some w =>
      let m2 : Match := { m1 with winner := some w.wallet }
      ({ g with matchTable := alSet g.matchTable matchId m2 },
       [.gameEnd matchId scores w.wallet])

/-- The events a trace of the part_000 server is built from: the four client
events, the disconnect signal, and the three timer bodies. -/
inductive Ev where
  | joinLobby (lobbyId wallet : String) (role : Role)
  | depositMade (lobbyId wallet : String)
  | joinMatch (matchId wallet : String)
  | tap (matchId wallet : String)
  | settleFire (matchId : String)
  | countdownFire (matchId : String)
  | gameEndFire (matchId : String)
  | disconnecting (rooms : List String)
deriving DecidableEq, Repr

/-- Dispatch one event to its part_000 handler. -/
def step (g : GState) : Ev → GState × List Broadcast
  | .joinLobby lid w r => Tap2Rekt.joinLobby g lid w r
  | .depositMade lid w => depositMade g lid w
  | .joinMatch mid w => joinMatch g mid w
  | .tap mid w => Tap2Rekt.tap g mid w
  | .settleFire mid => settleFire g mid
  | .countdownFire mid => countdownFire g mid
  | .gameEndFire mid => gameEndFire g mid
  | .disconnecting rs => Tap2Rekt.disconnecting g rs

/-- Run a trace of part_000 events, discarding the broadcasts. -/
def run (g : GState) : List Ev → GState
  | [] => g
  | e :: es => run (step g e).1 es

end P0

namespace STS

/-- The `join_match` handler from `src/server.ts`: create the match if absent
(10-second game time), then unconditionally overwrite the player entry with a
fresh zero-tap player, broadcast the count, and enter `countdown` exactly when
the player count equals 2 — with no check of the current state. -/
def joinMatch (g : GState) (matchId wallet : String) : GState × List Broadcast :=
  let m0 : Match := match alGet g.matchTable matchId with
    | none => ⟨matchId, [], .waiting, 3, 10, none⟩
    | some m => m
  let m1 : Match := { m0 with players := alSet m0.players wallet ⟨wallet, 0, 0⟩ }
  let b1 := Broadcast.playerJoined matchId m1.players.length
  if m1.players.length = 2 then
    let m2 : Match := { m1 with state := .countdown }
    ({ g with matchTable := alSet g.matchTable matchId m2 },
     [b1, .countdownStart matchId])
  else
    ({ g with matchTable := alSet g.matchTable matchId m1 }, [b1])

/-- The `deposit_made` handler from `src/server.ts`: same lobby bookkeeping as
part_000, but the ready branch only broadcasts `match_ready` (no `matchId`
field, no match materialization, no timer). -/
def depositMade (g : GState) (lobbyId wallet : String) : GState × List Broadcast :=
  match alGet g.lobbies lobbyId with
  | none => (g, [])
  | some lobby =>
    match alGet lobby.players wallet with
    | none => (g, [])
    | some lp =>
      let role := lp.role
      let lobby1 : Lobby := setDeposit lobby role
      let lp1 : LobbyPlayer := { lp with deposited := true }
      let lobby2 : Lobby := { lobby1 with players := alSet lobby1.players wallet lp1 }
      if lobby2.depositsCreator && lobby2.depositsOpponent then
        let lobby3 : Lobby := { lobby2 with state := LobbyState.ready }
        ({ g with lobbies := alSet g.lobbies lobbyId lobby3 },
         [.depositConfirmed lobbyId role, .matchReady lobbyId none])
      else
        ({ g with lobbies := alSet g.lobbies lobbyId lobby2 },
         [.depositConfirmed lobbyId role])

/-- The countdown timer body in `src/server.ts`: set `active` and broadcast
`game_start` (the JS code does not re-check existence; a match is never
removed, so the `none` branch is unreachable). -/
def countdownFire (g : GState) (matchId : String) : GState × List Broadcast :=
  match alGet g.matchTable matchId with
  | none => (g, [])
  | some m =>
    ({ g with matchTable := alSet g.matchTable matchId { m with state := .active } },
     [.gameStart matchId])

/-- The game-duration timer body in `src/server.ts`: set `finished`, compute
the scores and the winner, and broadcast `game_end` — the winner is never
written to the session's `winner` field. -/
def gameEndFire (g : GState) (matchId : String) : GState × List Broadcast :=
  match alGet g.matchTable matchId with
  | none => (g, [])
  | some m =>
    let m1 := { m with state := MatchState.finished }
    let scores := computeScores m1.players
    match reduceScores scores with
    | none => ({ g with matchTable := alSet g.matchTable matchId m1 }, [])
    | some w =>
      ({ g with matchTable := alSet g.matchTable matchId m1 },
       [.gameEnd matchId scores w.wallet])

/-- Dispatch one event to its `src/server.ts` handler (there is no settle
timer in this variant, so `settleFire` is a no-op). -/
def step (g : GState) : P0.Ev → GState × List Broadcast
  | .joinLobby lid w r => Tap2Rekt.joinLobby g lid w r
  | .depositMade lid w => depositMade g lid w
  | .joinMatch mid w => joinMatch g mid w
  | .tap mid w => Tap2Rekt.tap g mid w
  | .settleFire _ => (g, [])
  | .countdownFire mid => countdownFire g mid
  | .gameEndFire mid => gameEndFire g mid
  | .disconnecting rs => Tap2Rekt.disconnecting g rs

/-- Run a trace of events through the `src/server.ts` handlers. -/
def run (g : GState) : List P0.Ev → GState
  | [] => g
  | e :: es => run (step g e).1 es

end STS

/-- The state of the match stored under `mid`, if any. -/
def matchState (g : GState) (mid : String) : Option MatchState :=
  (alGet g.matchTable mid).map (fun m => m.state)

/-- The persisted winner of the match stored under `mid`, if any. -/
def matchWinner (g : GState) (mid : String) : Option String :=
  (alGet g.matchTable mid).bind (fun m => m.winner)

/-- The tap counter of player `w` in the match stored under `mid`, if any. -/
def playerTaps (g : GState) (mid w : String) : Option Nat :=
  (alGet g.matchTable mid).bind (fun m => (alGet m.players w).map (fun p => p.taps))

/-- The guard of the `tap` handler: the match exists, is `active`, and the
wallet is a known match player. -/
def tapAccepted (g : GState) (mid w : String) : Prop :=
  ∃ m, alGet g.matchTable mid = some m ∧ m.state = MatchState.active ∧
    ∃ p, alGet m.players w = some p

/-- A one-match registry whose match is `active` with a single player `A`
holding 3 taps — fixture for the C2 witness. -/
def c2G : GState :=
  ⟨[], [("M", ⟨"M", [("A", ⟨"A", 0, 3⟩)], MatchState.active, 3, 30, none⟩)]⟩

/-- The same registry but with the match still `waiting` — fixture for the
rejecting direction of the C2 witness. -/
def c2G2 : GState :=
  ⟨[], [("M", ⟨"M", [("A", ⟨"A", 0, 3⟩)], MatchState.waiting, 3, 30, none⟩)]⟩

/-- A one-lobby registry whose lobby knows only wallet `A` — fixture for the
C8 witness. -/
def c8G : GState :=
  ⟨[("L", ⟨"L", [("A", ⟨"A", .creator, false⟩)], .waiting, false, false⟩)], []⟩

/-- The C3 invariant: every stored lobby is `ready` exactly when both role
deposit flags are recorded. -/
def readyInv (g : GState) : Prop :=
  ∀ lid l, alGet g.lobbies lid = some l →
    (l.state = LobbyState.ready ↔ (l.depositsCreator = true ∧ l.depositsOpponent = true))

/-- The lobby produced by two joins and two deposits — fixture for the C3
witness. -/
def c3L : Lobby :=
  ⟨"L", [("A", ⟨"A", .creator, true⟩), ("B", ⟨"B", .opponent, true⟩)],
   .ready, true, true⟩

/-!  Helper lemmas about the association-list operations. -/

theorem alGet_alSet_self {α : Type} (xs : List (String × α)) (k : String) (v : α) :
    alGet (alSet xs k v) k = some v := by
  induction xs with
  | nil => simp [alGet, alSet]
  | cons kv xs ih =>
    obtain ⟨k1, v1⟩ := kv
    by_cases h : k1 = k
    · simp [alSet, h, alGet]
    · simp [alSet, h, alGet, ih]

theorem alGet_alSet_ne {α : Type} (xs : List (String × α)) (k k2 : String) (v : α)
    (h : k ≠ k2) : alGet (alSet xs k v) k2 = alGet xs k2 := by
  induction xs with
  | nil => simp [alGet, alSet, h]
  | cons kv xs ih =>
    obtain ⟨k1, v1⟩ := kv
    by_cases h1 : k1 = k
    · subst h1; simp [alSet, alGet, h]
    · simp [alSet, h1, alGet, ih]

theorem alGet_alSet_cases {α : Type} (xs : List (String × α)) (k k2 : String)
    (v w : α) (h : alGet (alSet xs k v) k2 = some w) :
    (k2 = k ∧ w = v) ∨ (k2 ≠ k ∧ alGet xs k2 = some w) := by
  by_cases hk : k2 = k
  · subst hk
    rw [alGet_alSet_self] at h
    exact Or.inl ⟨rfl, (Option.some_inj.mp h).symm⟩
  · exact Or.inr ⟨hk, by rwa [alGet_alSet_ne xs k k2 v (fun he => hk he.symm)] at h⟩

theorem alSet_length_of_get_some {α : Type} (xs : List (String × α)) (k : String)
    (v v0 : α) (h : alGet xs k = some v0) : (alSet xs k v).length = xs.length := by
  induction xs with
  | nil => simp [alGet] at h
  | cons kv xs ih =>
    obtain ⟨k1, v1⟩ := kv
    by_cases h1 : k1 = k
    · simp [alSet, h1]
    · simp [alGet, h1] at h
      simp [alSet, h1, ih h]

/-!  C2 — tap gating. -/

/-- C2: a `tap(matchId, wallet)` call increments that player's counter by
exactly one and broadcasts the new count iff the match exists, its state is
exactly `active`, and the wallet is a known match player; otherwise the call
returns the registries unchanged and emits no broadcast. -/
theorem c2_tap_gating (g : GState) (mid w : String) :
    (∀ m p, alGet g.matchTable mid = some m → m.state = MatchState.active →
      alGet m.players w = some p →
      ∃ ps, tap g mid w =
          ({ g with matchTable := alSet g.matchTable mid { m with players := ps } },
           [Broadcast.tapUpdate mid w (p.taps + 1)]) ∧
        alGet ps w = some { p with taps := p.taps + 1 } ∧
        (∀ v, v ≠ w → alGet ps v = alGet m.players v)) ∧
    (¬ tapAccepted g mid w → tap g mid w = (g, [])) := by
  constructor
  · intro m p hm hst hp
    refine ⟨alSet m.players w { p with taps := p.taps + 1 }, ?_, ?_, ?_⟩
    · simp [tap, hm, hst, hp]
    · exact alGet_alSet_self _ _ _
    · intro v hv
      exact alGet_alSet_ne _ _ _ _ (fun he => hv he.symm)
  · intro hna
    unfold tap
    cases hm : alGet g.matchTable mid with
    | none => rfl
    | some m =>
      by_cases hst : m.state = MatchState.active
      · cases hp : alGet m.players w with
        | none => simp [hst, hp]
        | some p => exact absurd ⟨m, hm, hst, p, hp⟩ hna
      · simp [hst]

/-- Witness for C2 at concrete registries: on an `active` match the tap of the
known player `A` with 3 taps broadcasts a `tap_update` carrying 4, and on a
`waiting` match the same call is a complete no-op. -/
theorem c2_tap_gating_witness :
    (tap c2G "M" "A").2 = [Broadcast.tapUpdate "M" "A" 4] ∧
    tap c2G2 "M" "A" = (c2G2, []) := by
  constructor
  · obtain ⟨ps, heq, -, -⟩ := (c2_tap_gating c2G "M" "A").1 _ _ rfl rfl rfl
    rw [heq]
  · refine (c2_tap_gating c2G2 "M" "A").2 ?_
    rintro ⟨m, hm, hst, -⟩
    simp [c2G2, alGet] at hm
    rw [← hm] at hst
    simp at hst

/-!  C8 — invalid deposit is a silent no-op. -/

/-- C8: a `deposit_made` for a missing lobby or for a wallet with no entry in
the lobby's player record changes neither registry and emits no broadcast, in
both the part_000 handler and the server.ts handler. -/
theorem c8_deposit_noop (g : GState) (lid w : String) :
    (alGet g.lobbies lid = none →
      P0.depositMade g lid w = (g, []) ∧ STS.depositMade g lid w = (g, [])) ∧
    (∀ l, alGet g.lobbies lid = some l → alGet l.players w = none →
      P0.depositMade g lid w = (g, []) ∧ STS.depositMade g lid w = (g, [])) := by
  constructor
  · intro h
    constructor <;> simp [P0.depositMade, STS.depositMade, h]
  · intro l hl hw
    constructor <;> simp [P0.depositMade, STS.depositMade, hl, hw]

/-- Witness for C8: a deposit by a wallet the lobby does not know, and a
deposit to a lobby id that has no lobby, both leave the concrete registry
untouched under both handler variants. -/
theorem c8_deposit_noop_witness :
    (P0.depositMade c8G "L" "B" = (c8G, []) ∧ STS.depositMade c8G "L" "B" = (c8G, [])) ∧
    (P0.depositMade c8G "X" "A" = (c8G, []) ∧ STS.depositMade c8G "X" "A" = (c8G, [])) :=
  ⟨(c8_deposit_noop c8G "L" "B").2 _ rfl rfl, (c8_deposit_noop c8G "X" "A").1 rfl⟩

/-!  C1 — phase monotonicity fails: a repeated deposit resets the phase. -/

/-- C1: the claimed phase monotonicity is violated by the part_000 handlers.
In the trace below wallets `A` and `B` form lobby `L`, both deposit (which
materializes match `L` and arms the settle timer), the settle timer fires and
moves the match to `countdown` — and then a second `deposit_made` by `A`
re-runs the both-deposited branch, which unconditionally writes
`matches[matchId].state = "waiting"`, moving the match from `countdown` back
to `waiting`. -/
theorem c1_phase_regression :
    matchState (P0.run initState
      [.joinLobby "L" "A" .creator, .joinLobby "L" "B" .opponent,
       .depositMade "L" "A", .depositMade "L" "B", .settleFire "L"]) "L"
      = some MatchState.countdown ∧
    matchState (P0.run initState
      [.joinLobby "L" "A" .creator, .joinLobby "L" "B" .opponent,
       .depositMade "L" "A", .depositMade "L" "B", .settleFire "L",
       .depositMade "L" "A"]) "L"
      = some MatchState.waiting := by
  exact ⟨rfl, rfl⟩

/-!  C9 — disconnect handling only broadcasts. -/

/-- C9: the `disconnecting` handler leaves both registries exactly as they
were; it emits one `player_left` broadcast carrying the stored player count
minus one for each of the connection's rooms that has a match, and nothing
else; and running the game-end timer afterwards yields exactly what it would
have yielded without the disconnect, so the match still finishes with the
disconnected player's last recorded taps. -/
theorem c9_disconnect_frame (g : GState) (rooms : List String) :
    (disconnecting g rooms).1 = g ∧
    (∀ r m, r ∈ rooms → alGet g.matchTable r = some m →
      Broadcast.playerLeft r ((m.players.length : Int) - 1) ∈ (disconnecting g rooms).2) ∧
    (∀ b, b ∈ (disconnecting g rooms).2 →
      ∃ r m, r ∈ rooms ∧ alGet g.matchTable r = some m ∧
        b = Broadcast.playerLeft r ((m.players.length : Int) - 1)) ∧
    (∀ mid, P0.gameEndFire (disconnecting g rooms).1 mid = P0.gameEndFire g mid) := by
  refine ⟨rfl, ?_, ?_, fun mid => rfl⟩
  · intro r m hr hm
    simp only [disconnecting, List.mem_filterMap]
    exact ⟨r, hr, by simp [hm]⟩
  · intro b hb
    simp only [disconnecting, List.mem_filterMap] at hb
    obtain ⟨r, hr, hmap⟩ := hb
    cases hm : alGet g.matchTable r with
    | none => rw [hm] at hmap; simp at hmap
    | some m =>
      rw [hm] at hmap
      exact ⟨r, m, hr, hm, (Option.some_inj.mp hmap).symm⟩

/-- Witness for C9: on a concrete registry holding the one-player match `M`,
a disconnect whose rooms are `M` and the matchless `X` keeps the registry
intact and broadcasts `player_left` with count 0 for `M`. -/
theorem c9_disconnect_frame_witness :
    (disconnecting c2G ["M", "X"]).1 = c2G ∧
    Broadcast.playerLeft "M" 0 ∈ (disconnecting c2G ["M", "X"]).2 := by
  constructor
  · exact (c9_disconnect_frame c2G ["M", "X"]).1
  · have h := (c9_disconnect_frame c2G ["M", "X"]).2.1 "M"
      ⟨"M", [("A", ⟨"A", 0, 3⟩)], MatchState.active, 3, 30, none⟩ (by simp) rfl
    simpa using h

/-!  Frame lemmas: the match-side handlers never touch the lobby registry. -/

theorem startMatchCountdown_lobbies (g : GState) (mid : String) :
    ((P0.startMatchCountdown g mid).1).lobbies = g.lobbies := by
  unfold P0.startMatchCountdown
  cases alGet g.matchTable mid <;> rfl

theorem joinMatch_lobbies (g : GState) (mid w : String) :
    ((P0.joinMatch g mid w).1).lobbies = g.lobbies := by
  unfold P0.joinMatch P0.startMatchCountdown
  repeat' first | rfl | split | dsimp only

theorem tap_lobbies (g : GState) (mid w : String) :
    ((tap g mid w).1).lobbies = g.lobbies := by
  unfold tap
  repeat' first | rfl | split

theorem settleFire_lobbies (g : GState) (mid : String) :
    ((P0.settleFire g mid).1).lobbies = g.lobbies := by
  unfold P0.settleFire P0.startMatchCountdown
  repeat' first | rfl | split

theorem countdownFire_lobbies (g : GState) (mid : String) :
    ((P0.countdownFire g mid).1).lobbies = g.lobbies := by
  unfold P0.countdownFire
  cases alGet g.matchTable mid <;> rfl

theorem gameEndFire_lobbies (g : GState) (mid : String) :
    ((P0.gameEndFire g mid).1).lobbies = g.lobbies := by
  unfold P0.gameEndFire
  repeat' first | rfl | split | dsimp only

theorem sts_joinMatch_lobbies (g : GState) (mid w : String) :
    ((STS.joinMatch g mid w).1).lobbies = g.lobbies := by
  unfold STS.joinMatch
  repeat' first | rfl | split | dsimp only

theorem sts_countdownFire_lobbies (g : GState) (mid : String) :
    ((STS.countdownFire g mid).1).lobbies = g.lobbies := by
  unfold STS.countdownFire
  cases alGet g.matchTable mid <;> rfl

theorem sts_gameEndFire_lobbies (g : GState) (mid : String) :
    ((STS.gameEndFire g mid).1).lobbies = g.lobbies := by
  unfold STS.gameEndFire
  repeat' first | rfl | split | dsimp only

/-!  Behaviour of `setDeposit` needed for the lobby invariants. -/

theorem setDeposit_state (l : Lobby) (r : Role) : (setDeposit l r).state = l.state := by
  cases r <;> rfl

theorem setDeposit_creator_mono (l : Lobby) (r : Role)
    (h : l.depositsCreator = true) : (setDeposit l r).depositsCreator = true := by
  cases r <;> simp [setDeposit, h]

theorem setDeposit_opponent_mono (l : Lobby) (r : Role)
    (h : l.depositsOpponent = true) : (setDeposit l r).depositsOpponent = true := by
  cases r <;> simp [setDeposit, h]

/-!  C3 — the ready-iff-both-deposits invariant. -/

theorem readyInv_joinLobby (g : GState) (lid w : String) (role : Role)
    (h : readyInv g) : readyInv ((joinLobby g lid w role).1) := by
  intro lid2 l hl
  unfold joinLobby at hl
  cases h0 : alGet g.lobbies lid with
  | none =>
    rw [h0] at hl
    dsimp only at hl
    rcases alGet_alSet_cases _ _ _ _ _ hl with ⟨-, rfl⟩ | ⟨-, hold⟩
    · simp
    · exact h lid2 l hold
  | some l0 =>
    rw [h0] at hl
    dsimp only at hl
    rcases alGet_alSet_cases _ _ _ _ _ hl with ⟨-, rfl⟩ | ⟨-, hold⟩
    · simpa using h lid l0 h0
    · exact h lid2 l hold

theorem readyInv_depositMade_P0 (g : GState) (lid w : String) (h : readyInv g) :
    readyInv ((P0.depositMade g lid w).1) := by
  unfold P0.depositMade
  cases h0 : alGet g.lobbies lid with
  | none => exact h
  | some lobby =>
    dsimp only
    cases h1 : alGet lobby.players w with
    | none => exact h
    | some lp =>
      dsimp only
      split
      · next hb =>
        intro lid2 l hl
        rcases alGet_alSet_cases _ _ _ _ _ hl with ⟨-, rfl⟩ | ⟨-, hold⟩
        · rw [Bool.and_eq_true] at hb
          exact ⟨fun _ => hb, fun _ => rfl⟩
        · exact h lid2 l hold
      · next hb =>
        intro lid2 l hl
        rcases alGet_alSet_cases _ _ _ _ _ hl with ⟨-, rfl⟩ | ⟨-, hold⟩
        · constructor
          · intro hready
            rw [setDeposit_state] at hready
            rcases (h lid lobby h0).mp hready with ⟨hc, ho⟩
            refine absurd ?_ hb
            rw [Bool.and_eq_true]
            exact ⟨setDeposit_creator_mono lobby lp.role hc,
              setDeposit_opponent_mono lobby lp.role ho⟩
          · intro ⟨hc, ho⟩
            refine absurd ?_ hb
            rw [Bool.and_eq_true]
            exact ⟨hc, ho⟩
        · exact h lid2 l hold

theorem depositMade_lobbies_eq (g : GState) (lid w : String) :
    ((STS.depositMade g lid w).1).lobbies = ((P0.depositMade g lid w).1).lobbies := by
  unfold STS.depositMade P0.depositMade
  cases h0 : alGet g.lobbies lid with
  | none => rfl
  | some lobby =>
    dsimp only
    cases h1 : alGet lobby.players w with
    | none => rfl
    | some lp =>
      dsimp only
      split_ifs <;> rfl

theorem readyInv_step_P0 (g : GState) (ev : P0.Ev) (h : readyInv g) :
    readyInv ((P0.step g ev).1) := by
  cases ev with
  | joinLobby lid w r => exact readyInv_joinLobby g lid w r h
  | depositMade lid w => exact readyInv_depositMade_P0 g lid w h
  | joinMatch mid w =>
    intro lid l hl
    rw [show ((P0.step g (P0.Ev.joinMatch mid w)).1).lobbies = g.lobbies
      from joinMatch_lobbies g mid w] at hl
    exact h lid l hl
  | tap mid w =>
    intro lid l hl
    rw [show ((P0.step g (P0.Ev.tap mid w)).1).lobbies = g.lobbies
      from tap_lobbies g mid w] at hl
    exact h lid l hl
  | settleFire mid =>
    intro lid l hl
    rw [show ((P0.step g (P0.Ev.settleFire mid)).1).lobbies = g.lobbies
      from settleFire_lobbies g mid] at hl
    exact h lid l hl
  | countdownFire mid =>
    intro lid l hl
    rw [show ((P0.step g (P0.Ev.countdownFire mid)).1).lobbies = g.lobbies
      from countdownFire_lobbies g mid] at hl
    exact h lid l hl
  | gameEndFire mid =>
    intro lid l hl
    rw [show ((P0.step g (P0.Ev.gameEndFire mid)).1).lobbies = g.lobbies
      from gameEndFire_lobbies g mid] at hl
    exact h lid l hl
  | disconnecting rs => exact h

theorem readyInv_step_STS (g : GState) (ev : P0.Ev) (h : readyInv g) :
    readyInv ((STS.step g ev).1) := by
  cases ev with
  | joinLobby lid w r => exact readyInv_joinLobby g lid w r h
  | depositMade lid w =>
    intro lid2 l hl
    rw [show ((STS.step g (P0.Ev.depositMade lid w)).1).lobbies
        = ((P0.depositMade g lid w).1).lobbies
      from depositMade_lobbies_eq g lid w] at hl
    exact readyInv_depositMade_P0 g lid w h lid2 l hl
  | joinMatch mid w =>
    intro lid l hl
    rw [show ((STS.step g (P0.Ev.joinMatch mid w)).1).lobbies = g.lobbies
      from sts_joinMatch_lobbies g mid w] at hl
    exact h lid l hl
  | tap mid w =>
    intro lid l hl
    rw [show ((STS.step g (P0.Ev.tap mid w)).1).lobbies = g.lobbies
      from tap_lobbies g mid w] at hl
    exact h lid l hl
  | settleFire mid => exact h
  | countdownFire mid =>
    intro lid l hl
    rw [show ((STS.step g (P0.Ev.countdownFire mid)).1).lobbies = g.lobbies
      from sts_countdownFire_lobbies g mid] at hl
    exact h lid l hl
  | gameEndFire mid =>
    intro lid l hl
    rw [show ((STS.step g (P0.Ev.gameEndFire mid)).1).lobbies = g.lobbies
      from sts_gameEndFire_lobbies g mid] at hl
    exact h lid l hl
  | disconnecting rs => exact h

theorem readyInv_run_P0 (g : GState) (evs : List P0.Ev) (h : readyInv g) :
    readyInv (P0.run g evs) := by
  induction evs generalizing g with
  | nil => exact h
  | cons e es ih => exact ih ((P0.step g e).1) (readyInv_step_P0 g e h)

theorem readyInv_run_STS (g : GState) (evs : List P0.Ev) (h : readyInv g) :
    readyInv (STS.run g evs) := by
  induction evs generalizing g with
  | nil => exact h
  | cons e es ih => exact ih ((STS.step g e).1) (readyInv_step_STS g e h)

theorem readyInv_init : readyInv initState := by
  intro lid l hl
  simp [initState, alGet] at hl

/-- C3: along every sequence of events starting from the empty registries —
under the part_000 handlers and under the server.ts handlers alike — every
stored lobby satisfies `state = ready` exactly when both `deposits.creator`
and `deposits.opponent` are recorded. -/
theorem c3_ready_invariant :
    (∀ evs : List P0.Ev, ∀ lid l, alGet (P0.run initState evs).lobbies lid = some l →
      (l.state = LobbyState.ready ↔ (l.depositsCreator = true ∧ l.depositsOpponent = true))) ∧
    (∀ evs : List P0.Ev, ∀ lid l, alGet (STS.run initState evs).lobbies lid = some l →
      (l.state = LobbyState.ready ↔ (l.depositsCreator = true ∧ l.depositsOpponent = true))) :=
  ⟨fun evs => readyInv_run_P0 initState evs readyInv_init,
   fun evs => readyInv_run_STS initState evs readyInv_init⟩

/-- Witness for C3: the lobby reached by two joins followed by two deposits is
the concrete `c3L`, and the invariant instantiated there says `ready` iff both
flags — which indeed hold. -/
theorem c3_ready_invariant_witness :
    c3L.state = LobbyState.ready ↔ (c3L.depositsCreator = true ∧ c3L.depositsOpponent = true) :=
  c3_ready_invariant.1
    [.joinLobby "L" "A" .creator, .joinLobby "L" "B" .opponent,
     .depositMade "L" "A", .depositMade "L" "B"] "L" c3L rfl

/-!  C10 — monotonicity of the deposit flags and the ready state. -/

theorem lobbyMono_step (g : GState) (ev : P0.Ev) (lid : String) (l1 : Lobby)
    (hl : alGet g.lobbies lid = some l1) :
    ∃ l2, alGet ((P0.step g ev).1).lobbies lid = some l2 ∧
      (l1.depositsCreator = true → l2.depositsCreator = true) ∧
      (l1.depositsOpponent = true → l2.depositsOpponent = true) ∧
      (l1.state = LobbyState.ready → l2.state = LobbyState.ready) := by
  cases ev with
  | joinLobby lid2 w r =>
    simp only [P0.step]
    unfold joinLobby
    by_cases he : lid2 = lid
    · subst he
      rw [hl]
      dsimp only
      exact ⟨_, alGet_alSet_self _ _ _, fun h => h, fun h => h, fun h => h⟩
    · refine ⟨l1, ?_, fun h => h, fun h => h, fun h => h⟩
      dsimp only
      rw [alGet_alSet_ne _ _ _ _ he]
      exact hl
  | depositMade lid2 w =>
    simp only [P0.step]
    unfold P0.depositMade
    cases h0 : alGet g.lobbies lid2 with
    | none => exact ⟨l1, hl, fun h => h, fun h => h, fun h => h⟩
    | some lobby =>
      dsimp only
      cases h1 : alGet lobby.players w with
      | none => exact ⟨l1, hl, fun h => h, fun h => h, fun h => h⟩
      | some lp =>
        dsimp only
        by_cases he : lid2 = lid
        · subst he
          obtain rfl : lobby = l1 := Option.some_inj.mp (h0.symm.trans hl)
          split
          · refine ⟨_, alGet_alSet_self _ _ _, ?_, ?_, fun _ => rfl⟩
            · exact fun hc => setDeposit_creator_mono lobby lp.role hc
            · exact fun ho => setDeposit_opponent_mono lobby lp.role ho
          · refine ⟨_, alGet_alSet_self _ _ _, ?_, ?_, ?_⟩
            · exact fun hc => setDeposit_creator_mono lobby lp.role hc
            · exact fun ho => setDeposit_opponent_mono lobby lp.role ho
            · intro hs
              rw [show ({ setDeposit lobby lp.role with
                    players := alSet (setDeposit lobby lp.role).players w
                      { lp with deposited := true } } : Lobby).state
                  = (setDeposit lobby lp.role).state from rfl, setDeposit_state]
              exact hs
        · split
          · refine ⟨l1, ?_, fun h => h, fun h => h, fun h => h⟩
            dsimp only
            rw [alGet_alSet_ne _ _ _ _ he]
            exact hl
          · refine ⟨l1, ?_, fun h => h, fun h => h, fun h => h⟩
            dsimp only
            rw [alGet_alSet_ne _ _ _ _ he]
            exact hl
  | joinMatch mid w =>
    refine ⟨l1, ?_, fun h => h, fun h => h, fun h => h⟩
    rw [show ((P0.step g (P0.Ev.joinMatch mid w)).1).lobbies = g.lobbies
      from joinMatch_lobbies g mid w]
    exact hl
  | tap mid w =>
    refine ⟨l1, ?_, fun h => h, fun h => h, fun h => h⟩
    rw [show ((P0.step g (P0.Ev.tap mid w)).1).lobbies = g.lobbies
      from tap_lobbies g mid w]
    exact hl
  | settleFire mid =>
    refine ⟨l1, ?_, fun h => h, fun h => h, fun h => h⟩
    rw [show ((P0.step g (P0.Ev.settleFire mid)).1).lobbies = g.lobbies
      from settleFire_lobbies g mid]
    exact hl
  | countdownFire mid =>
    refine ⟨l1, ?_, fun h => h, fun h => h, fun h => h⟩
    rw [show ((P0.step g (P0.Ev.countdownFire mid)).1).lobbies = g.lobbies
      from countdownFire_lobbies g mid]
    exact hl
  | gameEndFire mid =>
    refine ⟨l1, ?_, fun h => h, fun h => h, fun h => h⟩
    rw [show ((P0.step g (P0.Ev.gameEndFire mid)).1).lobbies = g.lobbies
      from gameEndFire_lobbies g mid]
    exact hl
  | disconnecting rs => exact ⟨l1, hl, fun h => h, fun h => h, fun h => h⟩

theorem lobbyMono_run (g : GState) (evs : List P0.Ev) (lid : String) (l1 : Lobby)
    (hl : alGet g.lobbies lid = some l1) :
    ∃ l2, alGet (P0.run g evs).lobbies lid = some l2 ∧
      (l1.depositsCreator = true → l2.depositsCreator = true) ∧
      (l1.depositsOpponent = true → l2.depositsOpponent = true) ∧
      (l1.state = LobbyState.ready → l2.state = LobbyState.ready) := by
  induction evs generalizing g l1 with
  | nil => exact ⟨l1, hl, fun h => h, fun h => h, fun h => h⟩
  | cons e es ih =>
    obtain ⟨lm, hlm, hc, ho, hs⟩ := lobbyMono_step g e lid l1 hl
    obtain ⟨l2, hl2, hc2, ho2, hs2⟩ := ih ((P0.step g e).1) lm hlm
    exact ⟨l2, hl2, fun h => hc2 (hc h), fun h => ho2 (ho h), fun h => hs2 (hs h)⟩

/-- C10: along any further events, a lobby's recorded deposit flags are never
reset and a `ready` lobby never returns to `waiting`; and a re-join of an
existing lobby overwrites that wallet's entry with `deposited = false` while
leaving the lobby's state and both per-role deposit flags untouched — which
is how a lobby stays `ready` while a re-joined player's own flag is false. -/
theorem c10_lobby_monotone :
    (∀ (g : GState) (evs : List P0.Ev) (lid : String) (l1 : Lobby),
      alGet g.lobbies lid = some l1 →
      ∃ l2, alGet (P0.run g evs).lobbies lid = some l2 ∧
        (l1.depositsCreator = true → l2.depositsCreator = true) ∧
        (l1.depositsOpponent = true → l2.depositsOpponent = true) ∧
        (l1.state = LobbyState.ready → l2.state = LobbyState.ready)) ∧
    (∀ (g : GState) (lid w : String) (role : Role) (l : Lobby),
      alGet g.lobbies lid = some l →
      ∃ l2, alGet ((joinLobby g lid w role).1).lobbies lid = some l2 ∧
        l2.state = l.state ∧
        l2.depositsCreator = l.depositsCreator ∧
        l2.depositsOpponent = l.depositsOpponent ∧
        alGet l2.players w = some ⟨w, role, false⟩) := by
  constructor
  · exact fun g evs lid l1 hl => lobbyMono_run g evs lid l1 hl
  · intro g lid w role l hl
    unfold joinLobby
    rw [hl]
    dsimp only
    exact ⟨_, alGet_alSet_self _ _ _, rfl, rfl, rfl, alGet_alSet_self _ _ _⟩

/-- Witness for C10: in the concrete ready lobby reached by two joins and two
deposits, a re-join by the already-deposited creator `A` leaves the lobby's
state and flags as they were (so it is still `ready`) while `A`'s own entry
now carries `deposited = false`. -/
theorem c10_lobby_monotone_witness :
    ∃ l2, alGet ((joinLobby (P0.run initState
        [.joinLobby "L" "A" .creator, .joinLobby "L" "B" .opponent,
         .depositMade "L" "A", .depositMade "L" "B"]) "L" "A" Role.creator).1).lobbies "L"
        = some l2 ∧
      l2.state = c3L.state ∧
      l2.depositsCreator = c3L.depositsCreator ∧
      l2.depositsOpponent = c3L.depositsOpponent ∧
      alGet l2.players "A" = some ⟨"A", Role.creator, false⟩ :=
  c10_lobby_monotone.2 _ "L" "A" Role.creator c3L rfl

/-!  C4 — where the countdown transition can fire. -/

theorem alGet_alSet_eq_ite {α : Type} (xs : List (String × α)) (k k2 : String)
    (v : α) : alGet (alSet xs k v) k2 = if k2 = k then some v else alGet xs k2 := by
  by_cases he : k2 = k
  · subst he; simp [alGet_alSet_self]
  · simp [he, alGet_alSet_ne _ _ _ _ (fun h => he h.symm)]

theorem countdown_from_waiting_P0 (g : GState) (ev : P0.Ev) (mid : String)
    (m1 m2 : Match) (h1 : alGet g.matchTable mid = some m1)
    (h2 : alGet ((P0.step g ev).1).matchTable mid = some m2)
    (hcd : m2.state = MatchState.countdown) :
    m1.state = MatchState.waiting ∨ m1.state = MatchState.countdown := by
  cases ev with
  | joinLobby lid w r =>
    rw [show ((P0.step g (P0.Ev.joinLobby lid w r)).1).matchTable = g.matchTable
      from rfl] at h2
    right
    rw [Option.some_inj.mp (h1.symm.trans h2)]
    exact hcd
  | disconnecting rs =>
    right
    rw [Option.some_inj.mp (h1.symm.trans h2)]
    exact hcd
  | tap mid2 w =>
    simp only [P0.step] at h2
    unfold tap at h2
    cases h0 : alGet g.matchTable mid2 with
    | none =>
      rw [h0] at h2
      right; rw [Option.some_inj.mp (h1.symm.trans h2)]; exact hcd
    | some m =>
      rw [h0] at h2
      dsimp only at h2
      by_cases hst : m.state = MatchState.active
      · rw [if_pos hst] at h2
        cases hp : alGet m.players w with
        | none =>
          rw [hp] at h2
          right; rw [Option.some_inj.mp (h1.symm.trans h2)]; exact hcd
        | some p =>
          rw [hp] at h2
          dsimp only at h2
          rw [alGet_alSet_eq_ite] at h2
          by_cases he : mid = mid2
          · rw [if_pos he] at h2
            obtain rfl := Option.some_inj.mp h2.symm
            dsimp only at hcd
            rw [hst] at hcd
            cases hcd
          · rw [if_neg he] at h2
            right; rw [Option.some_inj.mp (h1.symm.trans h2)]; exact hcd
      · rw [if_neg hst] at h2
        right; rw [Option.some_inj.mp (h1.symm.trans h2)]; exact hcd
  | depositMade lid w =>
    simp only [P0.step] at h2
    unfold P0.depositMade at h2
    cases h0 : alGet g.lobbies lid with
    | none =>
      rw [h0] at h2
      right; rw [Option.some_inj.mp (h1.symm.trans h2)]; exact hcd
    | some lobby =>
      rw [h0] at h2
      dsimp only at h2
      cases hp : alGet lobby.players w with
      | none =>
        rw [hp] at h2
        right; rw [Option.some_inj.mp (h1.symm.trans h2)]; exact hcd
      | some lp =>
        rw [hp] at h2
        dsimp only at h2
        revert h2
        split <;> intro h2
        · rw [alGet_alSet_eq_ite] at h2
          by_cases he : mid = lid
          · rw [if_pos he] at h2
            obtain rfl := Option.some_inj.mp h2.symm
            dsimp only at hcd
            cases hcd
          · rw [if_neg he] at h2
            right; rw [Option.some_inj.mp (h1.symm.trans h2)]; exact hcd
        · right; rw [Option.some_inj.mp (h1.symm.trans h2)]; exact hcd
  | settleFire mid2 =>
    simp only [P0.step] at h2
    unfold P0.settleFire P0.startMatchCountdown at h2
    cases h0 : alGet g.matchTable mid2 with
    | none =>
      rw [h0] at h2
      right; rw [Option.some_inj.mp (h1.symm.trans h2)]; exact hcd
    | some m =>
      rw [h0] at h2
      dsimp only at h2
      by_cases hst : m.state = MatchState.waiting
      · rw [if_pos hst] at h2
        dsimp only at h2
        by_cases he : mid = mid2
        · subst he
          obtain rfl : m = m1 := Option.some_inj.mp (h0.symm.trans h1)
          exact Or.inl hst
        · rw [alGet_alSet_eq_ite, if_neg he] at h2
          right; rw [Option.some_inj.mp (h1.symm.trans h2)]; exact hcd
      · rw [if_neg hst] at h2
        right; rw [Option.some_inj.mp (h1.symm.trans h2)]; exact hcd
  | countdownFire mid2 =>
    simp only [P0.step] at h2
    unfold P0.countdownFire at h2
    cases h0 : alGet g.matchTable mid2 with
    | none =>
      rw [h0] at h2
      right; rw [Option.some_inj.mp (h1.symm.trans h2)]; exact hcd
    | some m =>
      rw [h0] at h2
      dsimp only at h2
      rw [alGet_alSet_eq_ite] at h2
      by_cases he : mid = mid2
      · rw [if_pos he] at h2
        obtain rfl := Option.some_inj.mp h2.symm
        cases hcd
      · rw [if_neg he] at h2
        right; rw [Option.some_inj.mp (h1.symm.trans h2)]; exact hcd
  | gameEndFire mid2 =>
    simp only [P0.step] at h2
    unfold P0.gameEndFire at h2
    cases h0 : alGet g.matchTable mid2 with
    | none =>
      rw [h0] at h2
      right; rw [Option.some_inj.mp (h1.symm.trans h2)]; exact hcd
    | some m =>
      rw [h0] at h2
      dsimp only at h2
      cases hr : reduceScores (computeScores m.players) with
      | none =>
        rw [hr] at h2
        dsimp only at h2
        rw [alGet_alSet_eq_ite] at h2
        by_cases he : mid = mid2
        · rw [if_pos he] at h2
          obtain rfl := Option.some_inj.mp h2.symm
          cases hcd
        · rw [if_neg he] at h2
          right; rw [Option.some_inj.mp (h1.symm.trans h2)]; exact hcd
      | some wv =>
        rw [hr] at h2
        dsimp only at h2
        rw [alGet_alSet_eq_ite] at h2
        by_cases he : mid = mid2
        · rw [if_pos he] at h2
          obtain rfl := Option.some_inj.mp h2.symm
          cases hcd
        · rw [if_neg he] at h2
          right; rw [Option.some_inj.mp (h1.symm.trans h2)]; exact hcd
  | joinMatch mid2 w =>
    simp only [P0.step] at h2
    unfold P0.joinMatch P0.startMatchCountdown at h2
    by_cases he : mid = mid2
    · subst he
      cases h0 : alGet g.matchTable mid with
      | none => rw [h0] at h1; cases h1
      | some m =>
        obtain rfl : m = m1 := Option.some_inj.mp (h0.symm.trans h1)
        rw [h0] at h2
        dsimp only at h2
        revert h2
        cases hp : alGet m.players w <;>
        · try dsimp only
          split
          · next hcond => exact fun _ => Or.inl hcond.2
          · intro h2
            rw [alGet_alSet_eq_ite, if_pos rfl] at h2
            obtain rfl := Option.some_inj.mp h2.symm
            right
            exact hcd
    · cases h0 : alGet g.matchTable mid2 with
      | none =>
        rw [h0] at h2
        dsimp only [alGet] at h2
        revert h2
        split
        · intro h2
          rw [alGet_alSet_self] at h2
          dsimp only at h2
          rw [alGet_alSet_eq_ite, if_neg he, alGet_alSet_eq_ite, if_neg he] at h2
          right; rw [Option.some_inj.mp (h1.symm.trans h2)]; exact hcd
        · intro h2
          rw [alGet_alSet_eq_ite, if_neg he] at h2
          right; rw [Option.some_inj.mp (h1.symm.trans h2)]; exact hcd
      | some m =>
        rw [h0] at h2
        dsimp only at h2
        revert h2
        cases hp : alGet m.players w <;>
        · try dsimp only
          split
          · intro h2
            rw [alGet_alSet_self] at h2
            dsimp only at h2
            rw [alGet_alSet_eq_ite, if_neg he, alGet_alSet_eq_ite, if_neg he] at h2
            right; rw [Option.some_inj.mp (h1.symm.trans h2)]; exact hcd
          · intro h2
            rw [alGet_alSet_eq_ite, if_neg he] at h2
            right; rw [Option.some_inj.mp (h1.symm.trans h2)]; exact hcd

theorem sts_joinMatch_char (g : GState) (mid w : String) (m : Match)
    (hm : alGet g.matchTable mid = some m) :
    ∃ m2, alGet ((STS.joinMatch g mid w).1).matchTable mid = some m2 ∧
      m2.players = alSet m.players w ⟨w, 0, 0⟩ ∧
      m2.state = (if (alSet m.players w ⟨w, 0, 0⟩).length = 2
        then MatchState.countdown else m.state) := by
  unfold STS.joinMatch
  rw [hm]
  dsimp only
  by_cases hc : (alSet m.players w ⟨w, 0, 0⟩).length = 2
  · rw [if_pos hc]
    dsimp only
    exact ⟨_, alGet_alSet_self _ _ _, rfl, by rw [if_pos hc]⟩
  · rw [if_neg hc]
    exact ⟨_, alGet_alSet_self _ _ _, rfl, by rw [if_neg hc]⟩

/-- C4 counterexample: the claim fails on the `src/server.ts` handler.  In the
concrete server.ts trace below, `A` and `B` join match `M` (entering
`countdown`), the countdown timer fires (entering `active`), and then a
re-join by `A` — the player count staying at 2 — sets the state back to
`countdown` even though the match was `active`, contradicting the claim that
no event triggers a countdown transition on a non-`waiting` match. -/
theorem c4_counterexample :
    matchState (STS.run initState
      [.joinMatch "M" "A", .joinMatch "M" "B", .countdownFire "M"]) "M"
      = some MatchState.active ∧
    matchState (STS.run initState
      [.joinMatch "M" "A", .joinMatch "M" "B", .countdownFire "M",
       .joinMatch "M" "A"]) "M"
      = some MatchState.countdown :=
  ⟨rfl, rfl⟩

/-- C4 (amended): under the part_000 handlers the claim holds — no event moves
an existing match that is neither `waiting` nor already `countdown` into
`countdown` (in particular the settle-timer start and `join_match` trigger the
countdown only from `waiting`).  Under the server.ts handler, by contrast,
`join_match` sets the state to `countdown` exactly when the resulting player
count equals 2, regardless of the match's current state. -/
theorem c4_countdown_guard :
    (∀ (g : GState) (ev : P0.Ev) (mid : String) (m1 m2 : Match),
      alGet g.matchTable mid = some m1 →
      alGet ((P0.step g ev).1).matchTable mid = some m2 →
      m2.state = MatchState.countdown →
      m1.state = MatchState.waiting ∨ m1.state = MatchState.countdown) ∧
    (∀ (g : GState) (mid w : String) (m : Match),
      alGet g.matchTable mid = some m →
      ∃ m2, alGet ((STS.joinMatch g mid w).1).matchTable mid = some m2 ∧
        m2.players = alSet m.players w ⟨w, 0, 0⟩ ∧
        m2.state = (if (alSet m.players w ⟨w, 0, 0⟩).length = 2
          then MatchState.countdown else m.state)) :=
  ⟨countdown_from_waiting_P0, sts_joinMatch_char⟩

/-- Witness for C4: instantiating the part_000 half on the concrete countdown
trace of C1's prefix shows the step that produced `countdown` started from
`waiting`; instantiating the server.ts half on an `active` two-player match
shows the re-join forces `countdown` again. -/
theorem c4_countdown_guard_witness :
    (MatchState.waiting = MatchState.waiting ∨
      MatchState.waiting = MatchState.countdown) ∧
    (∃ m2, alGet ((STS.joinMatch (STS.run initState
        [.joinMatch "M" "A", .joinMatch "M" "B", .countdownFire "M"])
        "M" "A").1).matchTable "M" = some m2 ∧
      m2.players = alSet [("A", ⟨"A", 0, 0⟩), ("B", ⟨"B", 0, 0⟩)] "A" ⟨"A", 0, 0⟩ ∧
      m2.state = (if (alSet [("A", ⟨"A", 0, 0⟩), ("B", ⟨"B", 0, 0⟩)] "A"
          ⟨"A", 0, 0⟩ : List (String × Player)).length = 2
        then MatchState.countdown else MatchState.active)) := by
  constructor
  · exact c4_countdown_guard.1
      (P0.run initState
        [.joinLobby "L" "A" .creator, .joinLobby "L" "B" .opponent,
         .depositMade "L" "A", .depositMade "L" "B"])
      (P0.Ev.settleFire "L") "L"
      ⟨"L", [("A", ⟨"A", 0, 0⟩), ("B", ⟨"B", 0, 0⟩)], MatchState.waiting, 3, 30, none⟩
      ⟨"L", [("A", ⟨"A", 0, 0⟩), ("B", ⟨"B", 0, 0⟩)], MatchState.countdown, 3, 30, none⟩
      rfl rfl rfl
  · exact c4_countdown_guard.2 _ "M" "A"
      ⟨"M", [("A", ⟨"A", 0, 0⟩), ("B", ⟨"B", 0, 0⟩)], MatchState.active, 3, 10, none⟩ rfl

/-!  C7 — idempotence of join_match. -/

theorem run_append_P0 (g : GState) (l1 l2 : List P0.Ev) :
    P0.run g (l1 ++ l2) = P0.run (P0.run g l1) l2 := by
  induction l1 generalizing g with
  | nil => rfl
  | cons e es ih => exact ih ((P0.step g e).1)

theorem run_append_STS (g : GState) (l1 l2 : List P0.Ev) :
    STS.run g (l1 ++ l2) = STS.run (STS.run g l1) l2 := by
  induction l1 generalizing g with
  | nil => rfl
  | cons e es ih => exact ih ((STS.step g e).1)

theorem p0_joinMatch_rejoin_eq (g : GState) (mid w : String) (m : Match)
    (p : Player) (hm : alGet g.matchTable mid = some m)
    (hp : alGet m.players w = some p) :
    alGet ((P0.joinMatch g mid w).1).matchTable mid =
      some (if 2 ≤ m.players.length ∧ m.state = MatchState.waiting
        then { m with state := MatchState.countdown } else m) := by
  unfold P0.joinMatch P0.startMatchCountdown
  rw [hm]
  dsimp only
  rw [hp]
  dsimp only
  by_cases hc : 2 ≤ m.players.length ∧ m.state = MatchState.waiting
  · rw [if_pos hc, if_pos hc]
    rw [alGet_alSet_self]
    dsimp only
    exact alGet_alSet_self _ _ _
  · rw [if_neg hc, if_neg hc]
    exact alGet_alSet_self _ _ _

theorem sts_joinMatch_eq (g : GState) (mid w : String) (m : Match)
    (hm : alGet g.matchTable mid = some m) :
    alGet ((STS.joinMatch g mid w).1).matchTable mid =
      some (if (alSet m.players w ⟨w, 0, 0⟩).length = 2
        then { m with players := alSet m.players w ⟨w, 0, 0⟩,
                      state := MatchState.countdown }
        else { m with players := alSet m.players w ⟨w, 0, 0⟩ }) := by
  unfold STS.joinMatch
  rw [hm]
  dsimp only
  by_cases hc : (alSet m.players w ⟨w, 0, 0⟩).length = 2
  · rw [if_pos hc, if_pos hc]
    exact alGet_alSet_self _ _ _
  · rw [if_neg hc, if_neg hc]
    exact alGet_alSet_self _ _ _

theorem single_join_P0 (mid w : String) : ∀ n : Nat,
    alGet (P0.run initState
        (List.replicate (n + 1) (P0.Ev.joinMatch mid w))).matchTable mid
      = some ⟨mid, [(w, ⟨w, 0, 0⟩)], MatchState.waiting, 3, 30, none⟩ := by
  intro n
  induction n with
  | zero =>
    show alGet ((P0.step initState (P0.Ev.joinMatch mid w)).1).matchTable mid = _
    simp only [P0.step]
    unfold P0.joinMatch
    simp [initState, alGet, alSet, alGet_alSet_self]
  | succ n ih =>
    rw [List.replicate_succ' (n + 1), run_append_P0]
    show alGet ((P0.step _ (P0.Ev.joinMatch mid w)).1).matchTable mid = _
    simp only [P0.step]
    rw [p0_joinMatch_rejoin_eq _ mid w _ ⟨w, 0, 0⟩ ih (by simp [alGet])]
    rw [if_neg (by simp)]

theorem single_join_STS (mid w : String) : ∀ n : Nat,
    alGet (STS.run initState
        (List.replicate (n + 1) (P0.Ev.joinMatch mid w))).matchTable mid
      = some ⟨mid, [(w, ⟨w, 0, 0⟩)], MatchState.waiting, 3, 10, none⟩ := by
  intro n
  induction n with
  | zero =>
    show alGet ((STS.step initState (P0.Ev.joinMatch mid w)).1).matchTable mid = _
    simp only [STS.step]
    unfold STS.joinMatch
    simp [initState, alGet, alSet, alGet_alSet_self]
  | succ n ih =>
    rw [List.replicate_succ' (n + 1), run_append_STS]
    show alGet ((STS.step _ (P0.Ev.joinMatch mid w)).1).matchTable mid = _
    simp only [STS.step]
    rw [sts_joinMatch_eq _ mid w _ ih]
    simp [alSet]

/-- C7 counterexample: the claim fails on the `src/server.ts` handler.  In the
concrete server.ts trace below, `A` has 3 taps recorded during the active
phase; a re-join by `A` then overwrites `A`'s entry with a fresh player,
resetting the taps to 0 — the claim says a re-join leaves the entry
unchanged. -/
theorem c7_counterexample :
    playerTaps (STS.run initState
      [.joinMatch "M" "A", .joinMatch "M" "B", .countdownFire "M",
       .tap "M" "A", .tap "M" "A", .tap "M" "A"]) "M" "A" = some 3 ∧
    playerTaps (STS.run initState
      [.joinMatch "M" "A", .joinMatch "M" "B", .countdownFire "M",
       .tap "M" "A", .tap "M" "A", .tap "M" "A", .joinMatch "M" "A"]) "M" "A"
      = some 0 :=
  ⟨rfl, rfl⟩

/-- C7 (amended): the part_000 `join_match` is idempotent on the roster — a
re-join by a known wallet leaves the stored match unchanged except possibly
for the waiting-to-countdown transition when two players are present — and
under both variants repeated `join_match` calls by one single wallet keep the
player count at 1 and never start a countdown.  The server.ts `join_match`,
by contrast, overwrites the known wallet's entry with a fresh zero-tap player
(the player count still does not change). -/
theorem c7_join_idempotent :
    (∀ (g : GState) (mid w : String) (m : Match) (p : Player),
      alGet g.matchTable mid = some m → alGet m.players w = some p →
      alGet ((P0.joinMatch g mid w).1).matchTable mid =
        some (if 2 ≤ m.players.length ∧ m.state = MatchState.waiting
          then { m with state := MatchState.countdown } else m)) ∧
    (∀ (n : Nat) (mid w : String),
      alGet (P0.run initState
          (List.replicate (n + 1) (P0.Ev.joinMatch mid w))).matchTable mid
        = some ⟨mid, [(w, ⟨w, 0, 0⟩)], MatchState.waiting, 3, 30, none⟩ ∧
      alGet (STS.run initState
          (List.replicate (n + 1) (P0.Ev.joinMatch mid w))).matchTable mid
        = some ⟨mid, [(w, ⟨w, 0, 0⟩)], MatchState.waiting, 3, 10, none⟩) ∧
    (∀ (g : GState) (mid w : String) (m : Match) (p : Player),
      alGet g.matchTable mid = some m → alGet m.players w = some p →
      ∃ m2, alGet ((STS.joinMatch g mid w).1).matchTable mid = some m2 ∧
        m2.players.length = m.players.length ∧
        alGet m2.players w = some ⟨w, 0, 0⟩) := by
  refine ⟨p0_joinMatch_rejoin_eq, ?_, ?_⟩
  · exact fun n mid w => ⟨single_join_P0 mid w n, single_join_STS mid w n⟩
  · intro g mid w m p hm hp
    rw [sts_joinMatch_eq g mid w m hm]
    refine ⟨_, rfl, ?_, ?_⟩
    · by_cases hc : (alSet m.players w ⟨w, 0, 0⟩).length = 2
      · rw [if_pos hc]
        exact alSet_length_of_get_some _ _ _ _ hp
      · rw [if_neg hc]
        exact alSet_length_of_get_some _ _ _ _ hp
    · by_cases hc : (alSet m.players w ⟨w, 0, 0⟩).length = 2
      · rw [if_pos hc]
        exact alGet_alSet_self _ _ _
      · rw [if_neg hc]
        exact alGet_alSet_self _ _ _

/-- Witness for C7: a part_000 re-join of `A` into the concrete one-player
waiting match leaves the stored match exactly as it was, and the second
single-wallet conjunct instantiated at two repeated joins reports a
one-player waiting match under both variants. -/
theorem c7_join_idempotent_witness :
    alGet ((P0.joinMatch
        ⟨[], [("M", ⟨"M", [("A", ⟨"A", 0, 0⟩)], MatchState.waiting, 3, 30, none⟩)]⟩
        "M" "A").1).matchTable "M"
      = some (if 2 ≤ ([("A", (⟨"A", 0, 0⟩ : Player))] : List (String × Player)).length ∧
            MatchState.waiting = MatchState.waiting
          then (⟨"M", [("A", ⟨"A", 0, 0⟩)], MatchState.countdown, 3, 30, none⟩ : Match)
          else ⟨"M", [("A", ⟨"A", 0, 0⟩)], MatchState.waiting, 3, 30, none⟩) ∧
    alGet (P0.run initState
        (List.replicate 2 (P0.Ev.joinMatch "M" "A"))).matchTable "M"
      = some ⟨"M", [("A", ⟨"A", 0, 0⟩)], MatchState.waiting, 3, 30, none⟩ :=
  ⟨c7_join_idempotent.1
      ⟨[], [("M", ⟨"M", [("A", ⟨"A", 0, 0⟩)], MatchState.waiting, 3, 30, none⟩)]⟩
      "M" "A" ⟨"M", [("A", ⟨"A", 0, 0⟩)], MatchState.waiting, 3, 30, none⟩
      ⟨"A", 0, 0⟩ rfl rfl,
   (c7_join_idempotent.2.1 1 "M" "A").1⟩

/-!  C6 — the winner field is written only by the game-end firing. -/

theorem matchWinner_alSet (lb : List (String × Lobby)) (T : List (String × Match))
    (k mid : String) (v : Match) :
    matchWinner ⟨lb, alSet T k v⟩ mid
      = if mid = k then v.winner else matchWinner ⟨lb, T⟩ mid := by
  unfold matchWinner
  show (alGet (alSet T k v) mid).bind _ = _
  rw [alGet_alSet_eq_ite]
  by_cases he : mid = k <;> simp [he]

theorem p0_gameEndFire_winner (g : GState) (mid : String) (m : Match)
    (s : ScoreEntry) (ss : List ScoreEntry)
    (hm : alGet g.matchTable mid = some m)
    (hs : computeScores m.players = s :: ss) :
    matchWinner ((P0.gameEndFire g mid).1) mid
      = some (ss.foldl pickWinner s).wallet ∧
    matchState ((P0.gameEndFire g mid).1) mid = some MatchState.finished := by
  unfold P0.gameEndFire
  rw [hm]
  dsimp only
  rw [hs]
  dsimp only [reduceScores]
  constructor
  · rw [matchWinner_alSet, if_pos rfl]
  · unfold matchState
    dsimp only
    rw [alGet_alSet_self]
    rfl

theorem winner_frame_step (g : GState) (ev : P0.Ev) (mid : String)
    (hne : ev ≠ P0.Ev.gameEndFire mid) :
    matchWinner ((P0.step g ev).1) mid = matchWinner g mid := by
  cases ev with
  | joinLobby lid w r => rfl
  | disconnecting rs => rfl
  | tap mid2 w =>
    simp only [P0.step]
    unfold tap
    cases h0 : alGet g.matchTable mid2 with
    | none => rfl
    | some m =>
      dsimp only
      by_cases hst : m.state = MatchState.active
      · rw [if_pos hst]
        cases hp : alGet m.players w with
        | none => rfl
        | some p =>
          dsimp only
          rw [matchWinner_alSet]
          by_cases he : mid = mid2
          · subst he
            rw [if_pos rfl]
            simp [matchWinner, h0]
          · rw [if_neg he]
      · rw [if_neg hst]
  | settleFire mid2 =>
    simp only [P0.step]
    unfold P0.settleFire P0.startMatchCountdown
    cases h0 : alGet g.matchTable mid2 with
    | none => rfl
    | some m =>
      dsimp only
      by_cases hst : m.state = MatchState.waiting
      · rw [if_pos hst]
        dsimp only
        rw [matchWinner_alSet]
        by_cases he : mid = mid2
        · subst he
          rw [if_pos rfl]
          simp [matchWinner, h0]
        · rw [if_neg he]
      · rw [if_neg hst]
  | countdownFire mid2 =>
    simp only [P0.step]
    unfold P0.countdownFire
    cases h0 : alGet g.matchTable mid2 with
    | none => rfl
    | some m =>
      dsimp only
      rw [matchWinner_alSet]
      by_cases he : mid = mid2
      · subst he
        rw [if_pos rfl]
        simp [matchWinner, h0]
      · rw [if_neg he]
  | gameEndFire mid2 =>
    have hne2 : ¬ mid = mid2 := fun h => hne (by rw [h])
    simp only [P0.step]
    unfold P0.gameEndFire
    cases h0 : alGet g.matchTable mid2 with
    | none => rfl
    | some m =>
      dsimp only
      cases hr : reduceScores (computeScores m.players) with
      | none =>
        dsimp only
        rw [matchWinner_alSet, if_neg hne2]
      | some wv =>
        dsimp only
        rw [matchWinner_alSet, if_neg hne2]
  | joinMatch mid2 w =>
    simp only [P0.step]
    unfold P0.joinMatch P0.startMatchCountdown
    cases h0 : alGet g.matchTable mid2 with
    | none =>
      dsimp only [alGet]
      rw [if_neg (by simp [alSet])]
      dsimp only
      rw [matchWinner_alSet]
      by_cases he : mid = mid2
      · subst he
        rw [if_pos rfl]
        simp [matchWinner, h0]
      · rw [if_neg he]
    | some m =>
      dsimp only
      cases hp : alGet m.players w with
      | some q =>
        dsimp only
        by_cases hc : 2 ≤ m.players.length ∧ m.state = MatchState.waiting
        · rw [if_pos hc, alGet_alSet_self]
          dsimp only
          rw [matchWinner_alSet]
          by_cases he : mid = mid2
          · subst he
            rw [if_pos rfl]
            simp [matchWinner, h0]
          · rw [if_neg he, matchWinner_alSet, if_neg he]
        · rw [if_neg hc]
          rw [matchWinner_alSet]
          by_cases he : mid = mid2
          · subst he
            rw [if_pos rfl]
            simp [matchWinner, h0]
          · rw [if_neg he]
      | none =>
        dsimp only
        by_cases hc : 2 ≤ (alSet m.players w ⟨w, 0, 0⟩).length ∧
            m.state = MatchState.waiting
        · rw [if_pos hc, alGet_alSet_self]
          dsimp only
          rw [matchWinner_alSet]
          by_cases he : mid = mid2
          · subst he
            rw [if_pos rfl]
            simp [matchWinner, h0]
          · rw [if_neg he, matchWinner_alSet, if_neg he]
        · rw [if_neg hc]
          rw [matchWinner_alSet]
          by_cases he : mid = mid2
          · subst he
            rw [if_pos rfl]
            simp [matchWinner, h0]
          · rw [if_neg he]
  | depositMade lid w =>
    simp only [P0.step]
    unfold P0.depositMade
    cases h0 : alGet g.lobbies lid with
    | none => rfl
    | some lobby =>
      dsimp only
      cases hp : alGet lobby.players w with
      | none => rfl
      | some lp =>
        dsimp only
        split
        · cases h1 : alGet g.matchTable lid with
          | none =>
            rw [matchWinner_alSet]
            by_cases he : mid = lid
            · subst he
              rw [if_pos rfl]
              simp [matchWinner, h1]
            · rw [if_neg he]
              rfl
          | some m0 =>
            rw [matchWinner_alSet]
            by_cases he : mid = lid
            · subst he
              rw [if_pos rfl]
              simp [matchWinner, h1]
            · rw [if_neg he]
              rfl
        · rfl

theorem winner_none_run (g : GState) (evs : List P0.Ev) (mid : String)
    (h0 : matchWinner g mid = none) (hno : P0.Ev.gameEndFire mid ∉ evs) :
    matchWinner (P0.run g evs) mid = none := by
  induction evs generalizing g with
  | nil => exact h0
  | cons e es ih =>
    have hne : e ≠ P0.Ev.gameEndFire mid := by
      intro h
      exact hno (by rw [h]; exact List.mem_cons_self _ _)
    refine ih ((P0.step g e).1) ?_ (fun hm => hno (List.mem_cons_of_mem _ hm))
    rw [winner_frame_step g e mid hne]
    exact h0

theorem sts_gameEndFire_winner (g : GState) (mid : String) :
    matchWinner ((STS.gameEndFire g mid).1) mid = matchWinner g mid := by
  unfold STS.gameEndFire
  cases h0 : alGet g.matchTable mid with
  | none => rfl
  | some m =>
    dsimp only
    cases hr : reduceScores (computeScores m.players) with
    | none =>
      dsimp only
      rw [matchWinner_alSet, if_pos rfl]
      simp [matchWinner, h0]
    | some wv =>
      dsimp only
      rw [matchWinner_alSet, if_pos rfl]
      simp [matchWinner, h0]

/-- C6 counterexample: the claim fails on the `src/server.ts` handler.  In the
concrete server.ts trace below the match reaches `finished` (the game-end
timer fired), yet its `winner` field is still unset: server.ts computes the
winner only for the broadcast and never persists it, contradicting the claim
that the winner is assigned at the finished transition. -/
theorem c6_counterexample :
    matchState (STS.run initState
      [.joinMatch "M" "A", .joinMatch "M" "B", .countdownFire "M",
       .tap "M" "A", .gameEndFire "M"]) "M" = some MatchState.finished ∧
    matchWinner (STS.run initState
      [.joinMatch "M" "A", .joinMatch "M" "B", .countdownFire "M",
       .tap "M" "A", .gameEndFire "M"]) "M" = none :=
  ⟨rfl, rfl⟩

/-- C6 (amended): under the part_000 handlers the winner field is written only
by the game-end timer firing, which at the finished transition persists the
reduced maximum of the score list; every other event leaves every match's
winner unchanged, and along any trace containing no game-end firing for a
match its winner stays unset.  (The finished transition itself can recur via
the C1 deposit-refire regression, re-assigning the winner.)  Under server.ts
the winner is computed only for the broadcast: the game-end firing leaves the
stored winner field untouched, so it is never set at all. -/
theorem c6_winner_assignment :
    (∀ (g : GState) (mid : String) (m : Match) (s : ScoreEntry)
        (ss : List ScoreEntry),
      alGet g.matchTable mid = some m →
      computeScores m.players = s :: ss →
      matchWinner ((P0.gameEndFire g mid).1) mid
        = some (ss.foldl pickWinner s).wallet ∧
      matchState ((P0.gameEndFire g mid).1) mid = some MatchState.finished) ∧
    (∀ (g : GState) (ev : P0.Ev) (mid : String),
      ev ≠ P0.Ev.gameEndFire mid →
      matchWinner ((P0.step g ev).1) mid = matchWinner g mid) ∧
    (∀ (evs : List P0.Ev) (mid : String),
      P0.Ev.gameEndFire mid ∉ evs →
      matchWinner (P0.run initState evs) mid = none) ∧
    (∀ (g : GState) (mid : String),
      matchWinner ((STS.gameEndFire g mid).1) mid = matchWinner g mid) :=
  ⟨p0_gameEndFire_winner,
   fun g ev mid hne => winner_frame_step g ev mid hne,
   fun evs mid hno => winner_none_run initState evs mid rfl hno,
   sts_gameEndFire_winner⟩

/-- Witness for C6: on the concrete part_000 trace where `A` tapped once
during the active phase, the game-end firing persists winner `A` and state
`finished`; and on the trace without the game-end firing the winner is still
unset. -/
theorem c6_winner_assignment_witness :
    (matchWinner ((P0.gameEndFire (P0.run initState
        [.joinMatch "M" "A", .joinMatch "M" "B", .countdownFire "M",
         .tap "M" "A"]) "M").1) "M"
      = some (([⟨"B", 0⟩] : List ScoreEntry).foldl pickWinner ⟨"A", 1⟩).wallet ∧
     matchState ((P0.gameEndFire (P0.run initState
        [.joinMatch "M" "A", .joinMatch "M" "B", .countdownFire "M",
         .tap "M" "A"]) "M").1) "M" = some MatchState.finished) ∧
    matchWinner (P0.run initState
      [.joinMatch "M" "A", .joinMatch "M" "B", .countdownFire "M",
       .tap "M" "A"]) "M" = none :=
  ⟨c6_winner_assignment.1 _ "M"
      ⟨"M", [("A", ⟨"A", 0, 1⟩), ("B", ⟨"B", 0, 0⟩)], MatchState.active, 3, 30, none⟩
      ⟨"A", 1⟩ [⟨"B", 0⟩] rfl rfl,
   c6_winner_assignment.2.2.1
      [.joinMatch "M" "A", .joinMatch "M" "B", .countdownFire "M", .tap "M" "A"]
      "M" (by decide)⟩

/-!  C5 — the reduced winner is the strict maximum when taps are distinct. -/

theorem foldl_pickWinner_mem_max (ss : List ScoreEntry) : ∀ s : ScoreEntry,
    ss.foldl pickWinner s ∈ s :: ss ∧
      ∀ t ∈ s :: ss, t.score ≤ (ss.foldl pickWinner s).score := by
  induction ss with
  | nil =>
    intro s
    refine ⟨List.mem_singleton.mpr rfl, ?_⟩
    intro t ht
    rw [List.mem_singleton] at ht
    subst ht
    exact le_refl _
  | cons b bs ih =>
    intro s
    obtain ⟨hmem, hmax⟩ := ih (pickWinner s b)
    have hpick : pickWinner s b = s ∨ pickWinner s b = b := by
      unfold pickWinner
      split
      · exact Or.inl rfl
      · exact Or.inr rfl
    have hsb : s.score ≤ (pickWinner s b).score ∧ b.score ≤ (pickWinner s b).score := by
      unfold pickWinner
      split
      · next hgt => exact ⟨le_refl _, Nat.le_of_lt hgt⟩
      · next hng => exact ⟨Nat.not_lt.mp (fun h => hng h), le_refl _⟩
    constructor
    · show List.foldl pickWinner (pickWinner s b) bs ∈ s :: b :: bs
      rcases List.mem_cons.mp hmem with h | h
      · rcases hpick with hp | hp
        · rw [h, hp]; exact List.mem_cons_self _ _
        · rw [h, hp]; exact List.mem_cons_of_mem _ (List.mem_cons_self _ _)
      · exact List.mem_cons_of_mem _ (List.mem_cons_of_mem _ h)
    · intro t ht
      show t.score ≤ (List.foldl pickWinner (pickWinner s b) bs).score
      rcases List.mem_cons.mp ht with h | h
      · subst h
        exact le_trans hsb.1 (hmax _ (List.mem_cons_self _ _))
      rcases List.mem_cons.mp h with h2 | h2
      · subst h2
        exact le_trans hsb.2 (hmax _ (List.mem_cons_self _ _))
      · exact hmax _ (List.mem_cons_of_mem _ h2)

/-- C5: when the match players' final taps are pairwise distinct (and the
roster is nonempty), the game-end firing broadcasts a `game_end` whose winner
is the wallet of the strictly maximal player — the persisted winner agrees —
and whose score list carries exactly one `{wallet, score}` pair per match
player, in roster order, with the score equal to that player's taps. -/
theorem c5_winner_max (g : GState) (mid : String) (m : Match)
    (kv : String × Player) (kvs : List (String × Player))
    (hm : alGet g.matchTable mid = some m)
    (hne : m.players = kv :: kvs)
    (hdist : m.players.Pairwise (fun a b => a.2.taps ≠ b.2.taps)) :
    ∃ pkv ∈ m.players,
      (∀ q ∈ m.players, q ≠ pkv → q.2.taps < pkv.2.taps) ∧
      (P0.gameEndFire g mid).2
        = [Broadcast.gameEnd mid (computeScores m.players) pkv.2.wallet] ∧
      matchWinner ((P0.gameEndFire g mid).1) mid = some pkv.2.wallet ∧
      (computeScores m.players).map (fun e => (e.wallet, e.score))
        = m.players.map (fun q => (q.2.wallet, q.2.taps)) := by
  have hsc : computeScores m.players
      = ⟨kv.2.wallet, kv.2.taps⟩ :: computeScores kvs := by
    rw [hne]; rfl
  obtain ⟨hmem, hmax⟩ := foldl_pickWinner_mem_max (computeScores kvs)
    ⟨kv.2.wallet, kv.2.taps⟩
  set res := (computeScores kvs).foldl pickWinner ⟨kv.2.wallet, kv.2.taps⟩ with hres
  have hmem2 : res ∈ computeScores m.players := by rw [hsc]; exact hmem
  have hmax2 : ∀ t ∈ computeScores m.players, t.score ≤ res.score := by
    rw [hsc]; exact hmax
  obtain ⟨qkv, hq_mem, hq_eq⟩ := List.mem_map.mp hmem2
  refine ⟨qkv, hq_mem, ?_, ?_, ?_, ?_⟩
  · intro q hq hqe
    have hle : q.2.taps ≤ qkv.2.taps := by
      have := hmax2 ⟨q.2.wallet, q.2.taps⟩ (List.mem_map.mpr ⟨q, hq, rfl⟩)
      rw [← hq_eq] at this
      exact this
    have hne2 : q.2.taps ≠ qkv.2.taps :=
      (List.Pairwise.forall (fun a b h => fun he => h he.symm) hdist) hq hq_mem hqe
    exact lt_of_le_of_ne hle hne2
  · unfold P0.gameEndFire
    rw [hm]
    dsimp only
    rw [hsc]
    dsimp only [reduceScores]
    rw [← hres, ← hq_eq]
  · have := p0_gameEndFire_winner g mid m ⟨kv.2.wallet, kv.2.taps⟩
      (computeScores kvs) hm hsc
    rw [this.1, ← hres, ← hq_eq]
  · unfold computeScores
    rw [List.map_map]
    rfl

/-- Witness for C5: in the concrete match where `A` holds 5 taps and `B`
holds 3, the game-end firing broadcasts winner `A` with scores
`[(A, 5), (B, 3)]` and persists winner `A`. -/
theorem c5_winner_max_witness :
    ∃ pkv ∈ ([("A", (⟨"A", 0, 5⟩ : Player)), ("B", ⟨"B", 0, 3⟩)]
        : List (String × Player)),
      (∀ q ∈ ([("A", (⟨"A", 0, 5⟩ : Player)), ("B", ⟨"B", 0, 3⟩)]
          : List (String × Player)), q ≠ pkv → q.2.taps < pkv.2.taps) ∧
      (P0.gameEndFire
          ⟨[], [("M", ⟨"M", [("A", ⟨"A", 0, 5⟩), ("B", ⟨"B", 0, 3⟩)],
            MatchState.active, 3, 30, none⟩)]⟩ "M").2
        = [Broadcast.gameEnd "M"
            (computeScores [("A", ⟨"A", 0, 5⟩), ("B", ⟨"B", 0, 3⟩)]) pkv.2.wallet] ∧
      matchWinner ((P0.gameEndFire
          ⟨[], [("M", ⟨"M", [("A", ⟨"A", 0, 5⟩), ("B", ⟨"B", 0, 3⟩)],
            MatchState.active, 3, 30, none⟩)]⟩ "M").1) "M" = some pkv.2.wallet ∧
      (computeScores [("A", ⟨"A", 0, 5⟩), ("B", ⟨"B", 0, 3⟩)]).map
          (fun e => (e.wallet, e.score))
        = ([("A", (⟨"A", 0, 5⟩ : Player)), ("B", ⟨"B", 0, 3⟩)]
            : List (String × Player)).map (fun q => (q.2.wallet, q.2.taps)) :=
  c5_winner_max
    ⟨[], [("M", ⟨"M", [("A", ⟨"A", 0, 5⟩), ("B", ⟨"B", 0, 3⟩)],
      MatchState.active, 3, 30, none⟩)]⟩ "M"
    ⟨"M", [("A", ⟨"A", 0, 5⟩), ("B", ⟨"B", 0, 3⟩)], MatchState.active, 3, 30, none⟩
    ("A", ⟨"A", 0, 5⟩) [("B", ⟨"B", 0, 3⟩)] rfl rfl
    (by simp)

end Tap2Rekt
